import Mathlib

/-!
# Verification of the multi-element text canvas editor (PostComposer)

Shallow embedding of the PostComposer component: the text element store,
the local edit buffer, the hit-test resolver, the gesture transform engine,
the edit-mode state machine and the composition serializer.

Conventions of the embedding:
* React `useState` values become fields of `ComposerState`.  Each event
  handler is translated as a pure function from the state snapshot at the
  start of the handler to the state after all queued `setX` updates have
  been applied in order.  Reads of state inside a handler read the snapshot
  (React's stale-closure semantics); functional updaters see the pending
  value.  The `dragStart` `useRef` map is updated immediately.
* JavaScript numbers become `ℚ`; `Math.round` becomes `round : ℚ → ℤ`
  (both round half upward); `Math.max`/`Math.min` become `max`/`min`.
* `String.prototype.trim` becomes `jsTrim` (drop whitespace at both ends);
  `Array.prototype.join(' ')` becomes `joinSpace`.
* The network call `api.post` is modelled by the `Except.ok` result of
  `handlePost`: a validation error returns `Except.error` before any
  payload is produced, hence before any network call.
-/

namespace SpiteCreate

/-- Tri-state background enumeration of a text element. -/
inductive BackgroundMode where
  | off
  | white
  | inverted
deriving DecidableEq, Repr

/-- The `TextElement` interface of the composer: one placed text item.
`originalX`/`originalY` are the nullable pre-edit-relocation snapshot. -/
structure TextElement where
  id : String
  content : String
  x : ℚ
  y : ℚ
  originalX : Option ℚ
  originalY : Option ℚ
  fontSize : ℚ
  color : String
  fontFamily : String
  hasBackground : Bool
  backgroundColor : String
  backgroundMode : BackgroundMode
  capsLock : Bool
  scale : ℚ
deriving DecidableEq, Repr

/-- Gesture handler states delivered by the gesture library. -/
inductive GestureState where
  | BEGAN
  | ACTIVE
  | END
  | CANCELLED
  | FAILED
deriving DecidableEq, Repr

/-- Association-map lookup, modelling `record[key]` on a JS object. -/
def assocLookup {β : Type} : List (String × β) → String → Option β
  | [], _ => none
  | (k, v) :: rest, key => if k = key then some v else assocLookup rest key

/-- Association-map insertion `{...prev, [key]: value}`: replaces the value
of an existing key in place, otherwise appends at the end (JS insertion
order semantics). -/
def assocSet {β : Type} : List (String × β) → String → β → List (String × β)
  | [], key, v => [(key, v)]
  | (k, w) :: rest, key, v =>
      if k = key then (k, v) :: rest else (k, w) :: assocSet rest key v

/-- Association-map deletion, modelling `delete record[key]`. -/
def assocDelete {β : Type} : List (String × β) → String → List (String × β)
  | [], _ => []
  | (k, w) :: rest, key =>
      if k = key then rest else (k, w) :: assocDelete rest key

/-- `String.prototype.trim`: drop whitespace from both ends. -/
def jsTrim (s : String) : String :=
  ⟨((s.data.dropWhile Char.isWhitespace).reverse.dropWhile Char.isWhitespace).reverse⟩

/-- `Array.prototype.join(' ')`: single-space-separated concatenation. -/
def joinSpace : List String → String
  | [] => ""
  | [s] => s
  | s :: rest => s ++ " " ++ joinSpace rest

/-- The component state of `PostComposer`: `useState` hooks plus the
`dragStart` ref of the pan gesture engine. -/
structure ComposerState where
  textElements : List TextElement
  selectedTextId : String
  isEditingText : Bool
  isPosting : Bool
  currentFontSize : ℚ
  localTextContent : List (String × String)
  backgroundColor : String
  backgroundGradient : List String
  screenDarkened : Bool
  showControlBar : Bool
  dragStart : List (String × ℚ × ℚ)
deriving DecidableEq, Repr

/-- A freshly created text element (same defaults in the initial state,
`handleCanvasTap` creation and `createNewTextElement`). -/
def mkNewTextElement (id : String) (x y : ℚ) : TextElement :=
  { id := id
    content := ""
    x := x
    y := y
    originalX := none
    originalY := none
    fontSize := 24
    color := "#FF1A1A"
    fontFamily := "arial-black"
    hasBackground := false
    backgroundColor := "#FFFFFF"
    backgroundMode := .off
    capsLock := true
    scale := 1 }

/-- Initial component state: one default element with id `"1"` anchored at
the screen centre / upper third. -/
def initialState (screenWidth screenHeight : ℚ) : ComposerState :=
  { textElements := [mkNewTextElement "1" (screenWidth / 2) (screenHeight * (3 / 10))]
    selectedTextId := "1"
    isEditingText := false
    isPosting := false
    currentFontSize := 24
    localTextContent := []
    backgroundColor := "#F8F8FF"
    backgroundGradient := []
    screenDarkened := false
    showControlBar := false
    dragStart := [] }

/-- `getCurrentTextElement`: the element matching `selectedTextId`, with the
`|| textElements[0]` fallback. -/
def getCurrentTextElement (s : ComposerState) : Option TextElement :=
  match s.textElements.find? (fun el => el.id == s.selectedTextId) with
  | some el => some el
  | none => s.textElements.head?

/-- The hit-test predicate of `findElementAtPosition`: the tap point must
lie in a box anchored at `(x - 100, y - 25)` whose width/height is 300×80
for the first (default) element `"1"` and 200×50 for all others. -/
def hitTest (element : TextElement) (x y : ℚ) : Bool :=
  let elementX := element.x - 100
  let elementY := element.y - 25
  let isFirstElement := element.id == "1"
  let elementWidth : ℚ := if isFirstElement then 300 else 200
  let elementHeight : ℚ := if isFirstElement then 80 else 50
  decide (elementX ≤ x) && decide (x ≤ elementX + elementWidth) &&
    decide (elementY ≤ y) && decide (y ≤ elementY + elementHeight)

/-- `findElementAtPosition`: first element in creation order whose hit box
contains the tap point. -/
def findElementAtPosition (els : List TextElement) (x y : ℚ) : Option TextElement :=
  els.find? (fun element => hitTest element x y)

/-- `deleteTextElement`: explicit (long-press) deletion, guarded by
`textElements.length > 1`; moves the selection to the first other element
when the deleted element was selected. -/
def deleteTextElement (s : ComposerState) (id : String) : ComposerState :=
  if s.textElements.length > 1 then
    { s with
      textElements := s.textElements.filter (fun el => el.id != id)
      selectedTextId :=
        if s.selectedTextId = id then
          (((s.textElements.find? (fun el => el.id != id)).map (fun el => el.id)).getD "")
        else s.selectedTextId }
  else s

/-- One `updateTextElement(id, { content, fontSize })` call as performed for
each buffer entry by `stopEditingText`. -/
def commitDrafts (buf : List (String × String)) (fs : ℚ)
    (els : List TextElement) : List TextElement :=
  buf.foldl
    (fun acc entry =>
      acc.map (fun el =>
        if el.id == entry.1 then { el with content := entry.2, fontSize := fs } else el))
    els

/-- `stopEditingText`: commit every local edit buffer entry (content plus the
active `currentFontSize`) into the store, reset the editing flags and clear
the buffer. -/
def stopEditingText (s : ComposerState) : ComposerState :=
  { s with
    textElements := commitDrafts s.localTextContent s.currentFontSize s.textElements
    isEditingText := false
    screenDarkened := false
    showControlBar := false
    localTextContent := [] }

/-- Replace the first element with the given id (modelling
`textElements.find(...)` followed by in-place mutation of the found one). -/
def setFirst : List TextElement → String → (TextElement → TextElement) → List TextElement
  | [], _, _ => []
  | el :: rest, id, g =>
      if el.id == id then g el :: rest else el :: setFirst rest id g

/-- The per-element body of `moveTextIntoViewForEditing`: always snapshot
the current position into `originalX`/`originalY`; relocate to the default
anchor `(screenWidth * 0.5, screenHeight * 0.3)` only when the position is
within the 100-unit margin of a canvas edge. -/
def moveTransform (screenWidth screenHeight : ℚ) (el : TextElement) : TextElement :=
  let el1 := { el with originalX := some el.x, originalY := some el.y }
  if el1.x < 100 ∨ el1.x > screenWidth - 100 ∨ el1.y < 100 ∨ el1.y > screenHeight - 100 then
    { el1 with x := screenWidth * (1 / 2), y := screenHeight * (3 / 10) }
  else el1

/-- `moveTextIntoViewForEditing`: apply `moveTransform` to the (first)
element found with the given id. -/
def moveTextIntoViewForEditing (screenWidth screenHeight : ℚ) (id : String)
    (els : List TextElement) : List TextElement :=
  setFirst els id (moveTransform screenWidth screenHeight)

/-- `startEditingText`: select the element, raise the editing flags, move it
into view, then seed the local edit buffer and the editing font size from
the (possibly moved) element. -/
def startEditingText (screenWidth screenHeight : ℚ) (id : String)
    (s : ComposerState) : ComposerState :=
  match (moveTextIntoViewForEditing screenWidth screenHeight id s.textElements).find?
      (fun el => el.id == id) with
  | some element =>
      { s with
        selectedTextId := id
        isEditingText := true
        screenDarkened := true
        showControlBar := true
        textElements := moveTextIntoViewForEditing screenWidth screenHeight id s.textElements
        localTextContent := assocSet s.localTextContent id element.content
        currentFontSize := element.fontSize }
  | none =>
      { s with
        selectedTextId := id
        isEditingText := true
        screenDarkened := true
        showControlBar := true
        textElements := moveTextIntoViewForEditing screenWidth screenHeight id s.textElements }

/-- `handleCanvasTap`.  While editing: exit editing, deleting the current
element when its buffered content is blank (clearing its selection and
buffer entry), then run `stopEditingText` — which still reads the buffer
snapshot taken at the start of the handler.  While not editing: tap on an
existing element starts editing it; tap on empty canvas creates a fresh
element (`newId` stands for `Date.now().toString()`).  In the creation
branch `startEditingText` runs against the stale element list that does not
yet contain the new element, so the move and the buffer seeding are no-ops
there. -/
def handleCanvasTap (screenWidth screenHeight : ℚ) (s : ComposerState)
    (locationX locationY : ℚ) (newId : String) : ComposerState :=
  if s.isEditingText then
    match getCurrentTextElement s with
    | some currentElement =>
        if jsTrim ((assocLookup s.localTextContent currentElement.id).getD
            currentElement.content) = "" then
          -- The queued updates: filter out the element, clear the selection,
          -- delete its buffer entry; then `stopEditingText` (reading the
          -- snapshot buffer) commits into the filtered list and finally
          -- clears the whole buffer, overwriting the entry deletion.
          { s with
            textElements := commitDrafts s.localTextContent s.currentFontSize
              (s.textElements.filter (fun el => el.id != currentElement.id))
            selectedTextId := ""
            isEditingText := false
            screenDarkened := false
            showControlBar := false
            localTextContent := [] }
        else
          { s with
            textElements := commitDrafts s.localTextContent s.currentFontSize s.textElements
            isEditingText := false
            screenDarkened := false
            showControlBar := false
            localTextContent := [] }
    | none =>
        { s with
          textElements := commitDrafts s.localTextContent s.currentFontSize s.textElements
          isEditingText := false
          screenDarkened := false
          showControlBar := false
          localTextContent := [] }
  else
    match findElementAtPosition s.textElements locationX locationY with
    | some tapped => startEditingText screenWidth screenHeight tapped.id s
    | none =>
        { s with
          textElements := s.textElements ++ [mkNewTextElement newId locationX locationY]
          selectedTextId := newId
          isEditingText := true
          screenDarkened := true
          showControlBar := true }

/-- `handlePanStateChange`: snapshot the element's position into the
`dragStart` ref on `BEGAN`; discard the snapshot on `END`, `CANCELLED` or
`FAILED`. -/
def handlePanStateChange (s : ComposerState) (elementId : String)
    (st : GestureState) : ComposerState :=
  let s1 :=
    if st = .BEGAN then
      match s.textElements.find? (fun e => e.id == elementId) with
      | some el => { s with dragStart := assocSet s.dragStart elementId (el.x, el.y) }
      | none => s
    else s
  if st = .END ∨ st = .CANCELLED ∨ st = .FAILED then
    { s1 with dragStart := assocDelete s1.dragStart elementId }
  else s1

/-- `handlePanGesture`: on an active, non-editing frame with a recorded
start position, set the element's position to the snapshot plus the
cumulative translation, with no damping or clamping. -/
def handlePanGesture (s : ComposerState) (elementId : String) (st : GestureState)
    (translationX translationY : ℚ) : ComposerState :=
  if st ≠ .ACTIVE ∨ s.isEditingText = true then s
  else
    match assocLookup s.dragStart elementId with
    | none => s
    | some start =>
        { s with
          textElements := s.textElements.map (fun el =>
            if el.id == elementId then
              { el with x := start.1 + translationX, y := start.2 + translationY }
            else el) }

/-- `handlePinchGesture`: on an active, non-editing frame multiply the
committed scale by the incremental gesture factor and clamp to
`[0.3, 5.0]`. -/
def handlePinchGesture (s : ComposerState) (elementId : String)
    (st : GestureState) (gestureScale : ℚ) : ComposerState :=
  if st = .ACTIVE then
    match s.textElements.find? (fun el => el.id == elementId) with
    | some element =>
        if s.isEditingText = false then
          let newScale := max (3 / 10) (min 5 (element.scale * gestureScale))
          { s with
            textElements := s.textElements.map (fun el =>
              if el.id == elementId then { el with scale := newScale } else el) }
        else s
    | none => s
  else s

/-- The visual style derived by `getTextStyle`: the rendered background chip
comes from `backgroundMode`, the scale is a visual transform multiplier. -/
structure TextStyle where
  fontSize : ℚ
  color : String
  backgroundColor : String
  hasPadding : Bool
  uppercase : Bool
  scale : ℚ
deriving DecidableEq, Repr

/-- `getTextStyle`: `white` mode renders a white chip, `inverted` renders
a chip of the element's colour with white text, `off` renders none. -/
def getTextStyle (element : TextElement) : TextStyle :=
  let style0 : TextStyle :=
    { fontSize := element.fontSize
      color := element.color
      backgroundColor := "transparent"
      hasPadding := false
      uppercase := element.capsLock
      scale := element.scale }
  if element.backgroundMode = .white then
    { style0 with backgroundColor := "#FFFFFF", hasPadding := true }
  else if element.backgroundMode = .inverted then
    { style0 with color := "#FFFFFF", backgroundColor := element.color, hasPadding := true }
  else style0

/-- Per-element record of the outbound creation payload. -/
structure TextElementOut where
  content : String
  x : ℚ
  y : ℚ
  fontSize : ℤ
  color : String
  fontFamily : String
  hasBackground : Bool
  backgroundColor : String
deriving DecidableEq, Repr

/-- One exported element: the scale is baked into the exported font size
(`Math.round(el.fontSize * el.scale)`); the exported `hasBackground` is the
element's stored `hasBackground` field. -/
def serializeElement (el : TextElement) : TextElementOut :=
  { content := el.content
    x := el.x
    y := el.y
    fontSize := round (el.fontSize * el.scale)
    color := el.color
    fontFamily := el.fontFamily
    hasBackground := el.hasBackground
    backgroundColor := el.backgroundColor }

/-- Validation errors of submission. -/
inductive PostError where
  | EmptyContent
  | TooLong
deriving DecidableEq, Repr

/-- The referenced original post of a repost. -/
structure OriginalPost where
  id : Nat
deriving DecidableEq, Repr

/-- Inbound repost seed. -/
structure RepostData where
  originalPost : OriginalPost
  screenshotUri : String
deriving DecidableEq, Repr

/-- Repost placement geometry (always emitted as the identity). -/
structure RepostGeometry where
  x : ℚ
  y : ℚ
  scale : ℚ
deriving DecidableEq, Repr

/-- Outbound repost block. -/
structure RepostOut where
  original_post_id : Nat
  screenshot_uri : String
  repost_geometry : RepostGeometry
deriving DecidableEq, Repr

/-- The outbound creation payload `PostCreate`. -/
structure PostCreate where
  text_content : String
  text_elements : List TextElementOut
  font_choice : String
  font_size : ℤ
  text_color : String
  background_color : String
  background_gradient : Option (List String)
  has_outline : Bool
  outline_color : String
  has_text_background : Bool
  text_background_color : Option String
  canvas_width : ℤ
  canvas_height : ℤ
  repost_data : Option RepostOut
deriving DecidableEq, Repr

/-- The 500-character ceiling `maxLength`. -/
def maxLength : Nat := 500

/-- JS `a || b` on an optional number (`0` is falsy). -/
def jsOrQ (v : Option ℚ) (d : ℚ) : ℚ :=
  match v with
  | none => d
  | some q => if q = 0 then d else q

/-- JS `a || b` on an optional string (`""` is falsy). -/
def jsOrS (v : Option String) (d : String) : String :=
  match v with
  | none => d
  | some t => if t = "" then d else t

/-- The elements as seen by `handlePost`: committed content overridden by
any pending local edit buffer entry. -/
def effectiveElements (s : ComposerState) : List TextElement :=
  s.textElements.map (fun el =>
    { el with content := (assocLookup s.localTextContent el.id).getD el.content })

/-- The aggregate text of `handlePost`: elements whose trimmed content is
non-empty are kept and their *untrimmed* `content` values are joined with
single spaces, in creation order. -/
def aggregateText (els : List TextElement) : String :=
  joinSpace ((els.filter (fun el => jsTrim el.content != "")).map (fun el => el.content))

/-- `handlePost`: validate the aggregate text, then build the creation
payload.  `Except.error` is returned before any payload exists, so before
any network call; `Except.ok` carries the payload sent to the backend.
(The code also commits the buffer entries into component state first; that
side effect does not influence the produced result, which is computed from
the buffer-overridden `currentElements`.) -/
def handlePost (screenWidth screenHeight : ℚ) (repostData : Option RepostData)
    (s : ComposerState) : Except PostError PostCreate :=
  let currentElements := effectiveElements s
  let allText := aggregateText currentElements
  if jsTrim allText = "" then Except.error PostError.EmptyContent
  else if allText.length > maxLength then Except.error PostError.TooLong
  else Except.ok
    { text_content := allText
      text_elements := currentElements.map serializeElement
      font_choice := jsOrS ((currentElements.head?).map (fun el => el.fontFamily)) "arial-black"
      font_size := round
        ((jsOrQ ((currentElements.head?).map (fun el => el.fontSize)) 24) *
          (jsOrQ ((currentElements.head?).map (fun el => el.scale)) 1))
      text_color := jsOrS ((currentElements.head?).map (fun el => el.color)) "#FF1A1A"
      background_color := s.backgroundColor
      background_gradient :=
        if s.backgroundGradient.length > 0 then some s.backgroundGradient else none
      has_outline := false
      outline_color := "#000000"
      has_text_background := ((currentElements.head?).map (fun el => el.hasBackground)).getD false
      text_background_color :=
        if ((currentElements.head?).map (fun el => el.hasBackground)).getD false then
          (currentElements.head?).map (fun el => el.backgroundColor)
        else none
      canvas_width := round screenWidth
      canvas_height := round screenHeight
      repost_data := repostData.map (fun rd =>
        { original_post_id := rd.originalPost.id
          screenshot_uri := rd.screenshotUri
          repost_geometry := { x := 0, y := 0, scale := 1 } }) }

/-- A fold of pinch gesture frames on one element. -/
def pinchRun (s : ComposerState) (elementId : String)
    (frames : List (GestureState × ℚ)) : ComposerState :=
  frames.foldl (fun st fr => handlePinchGesture st elementId fr.1 fr.2) s

/-- A fold of active pan gesture frames on one element. -/
def panRun (s : ComposerState) (elementId : String)
    (ts : List (ℚ × ℚ)) : ComposerState :=
  ts.foldl (fun st t => handlePanGesture st elementId .ACTIVE t.1 t.2) s

/-- The scale of the (first) element with the given id. -/
def getScale (s : ComposerState) (id : String) : Option ℚ :=
  (s.textElements.find? (fun el => el.id == id)).map (fun el => el.scale)

/-- The position of the (first) element with the given id. -/
def getPos (s : ComposerState) (id : String) : Option (ℚ × ℚ) :=
  (s.textElements.find? (fun el => el.id == id)).map (fun el => (el.x, el.y))

/-- Modelled from the spec for comparison with `aggregateText` (claim C3):
"concatenate all elements' trimmed, non-empty `content` values (creation
order) with single-space separators". -/
def specAggregateText (els : List TextElement) : String :=
  joinSpace (((els.map (fun el => jsTrim el.content)).filter (fun t => t != "")))

/-- Modelled from the spec for comparison with `hitTest` (claim C4): a
bounding box *centered* on the element's position, 300×80 for the first
element and 200×50 for the others. -/
def specCenteredHit (element : TextElement) (x y : ℚ) : Bool :=
  let w : ℚ := if element.id == "1" then 300 else 200
  let h : ℚ := if element.id == "1" then 80 else 50
  decide (element.x - w / 2 ≤ x) && decide (x ≤ element.x + w / 2) &&
    decide (element.y - h / 2 ≤ y) && decide (y ≤ element.y + h / 2)

/-- The off-screen test of `moveTextIntoViewForEditing`: the position lies
within the 100-unit margin of a canvas edge. -/
def isOffScreen (screenWidth screenHeight : ℚ) (e : TextElement) : Prop :=
  e.x < 100 ∨ e.x > screenWidth - 100 ∨ e.y < 100 ∨ e.y > screenHeight - 100

instance (screenWidth screenHeight : ℚ) (e : TextElement) :
    Decidable (isOffScreen screenWidth screenHeight e) := by
  unfold isOffScreen
  infer_instance

/-- Per-element view of `commitDrafts`: the effect of the whole buffer
commit on one element. -/
def applyDrafts (buf : List (String × String)) (fs : ℚ) (el : TextElement) : TextElement :=
  buf.foldl
    (fun acc entry =>
      if acc.id == entry.1 then { acc with content := entry.2, fontSize := fs } else acc)
    el

/-- Invariant of an ongoing drag on one element: the `dragStart` ref holds
the snapshot, editing is off, and the element is still present. -/
def PanInv (s : ComposerState) (id : String) (x0 y0 : ℚ) : Prop :=
  assocLookup s.dragStart id = some (x0, y0) ∧ s.isEditingText = false ∧
    ∃ el, s.textElements.find? (fun e => e.id == id) = some el

/-- Builder for concrete composer states used in witnesses. -/
def mkState (els : List TextElement) (sel : String) (editing : Bool) (fs : ℚ)
    (buf : List (String × String)) : ComposerState :=
  { textElements := els
    selectedTextId := sel
    isEditingText := editing
    isPosting := false
    currentFontSize := fs
    localTextContent := buf
    backgroundColor := "#F8F8FF"
    backgroundGradient := []
    screenDarkened := editing
    showControlBar := editing
    dragStart := [] }

/-! ## Helper lemmas -/

theorem applyDrafts_nil (fs : ℚ) (el : TextElement) : applyDrafts [] fs el = el := rfl

theorem applyDrafts_cons (entry : String × String) (buf : List (String × String))
    (fs : ℚ) (el : TextElement) :
    applyDrafts (entry :: buf) fs el =
      applyDrafts buf fs
        (if el.id == entry.1 then { el with content := entry.2, fontSize := fs } else el) := rfl

theorem commitDrafts_eq_map (buf : List (String × String)) (fs : ℚ)
    (els : List TextElement) :
    commitDrafts buf fs els = els.map (applyDrafts buf fs) := by
  induction buf generalizing els with
  | nil =>
      have h : applyDrafts [] fs = fun el => el := funext fun el => rfl
      simp [commitDrafts, h]
  | cons entry buf ih =>
      have h1 : commitDrafts (entry :: buf) fs els =
          commitDrafts buf fs
            (els.map (fun el =>
              if el.id == entry.1 then { el with content := entry.2, fontSize := fs } else el)) := rfl
      rw [h1, ih, List.map_map]
      rfl

theorem applyDrafts_preserves (buf : List (String × String)) (fs : ℚ) (el : TextElement) :
    (applyDrafts buf fs el).id = el.id ∧ (applyDrafts buf fs el).x = el.x ∧
    (applyDrafts buf fs el).y = el.y ∧ (applyDrafts buf fs el).originalX = el.originalX ∧
    (applyDrafts buf fs el).originalY = el.originalY ∧
    (applyDrafts buf fs el).scale = el.scale := by
  induction buf generalizing el with
  | nil => simp [applyDrafts_nil]
  | cons entry buf ih =>
      rw [applyDrafts_cons]
      split
      · exact (ih _)
      · exact ih el

theorem applyDrafts_not_mem (buf : List (String × String)) (fs : ℚ) (el : TextElement)
    (h : el.id ∉ buf.map Prod.fst) : applyDrafts buf fs el = el := by
  induction buf with
  | nil => rfl
  | cons entry buf ih =>
      rw [applyDrafts_cons]
      have hne : el.id ≠ entry.1 := by
        intro he
        exact h (by simp [he])
      rw [if_neg (by simpa using hne)]
      exact ih (fun hm => h (by simp at hm ⊢; exact Or.inr hm))

theorem applyDrafts_lookup (buf : List (String × String)) (fs : ℚ) (el : TextElement)
    (id0 : String) (c : String) (hnd : (buf.map Prod.fst).Nodup)
    (hmem : (id0, c) ∈ buf) (hid : el.id = id0) :
    (applyDrafts buf fs el).content = c ∧ (applyDrafts buf fs el).fontSize = fs := by
  induction buf generalizing el with
  | nil => simp at hmem
  | cons entry buf ih =>
      rw [applyDrafts_cons]
      rcases List.mem_cons.mp hmem with heq | htail
      · have h1 : entry.1 = id0 := by rw [← heq]
        have h2 : entry.2 = c := by rw [← heq]
        rw [if_pos (by simpa using hid.trans h1.symm)]
        have hnotin : ({ el with content := entry.2, fontSize := fs } : TextElement).id ∉
            buf.map Prod.fst := by
          have : entry.1 ∉ buf.map Prod.fst := by
            simpa using (List.nodup_cons.mp hnd).1
          simpa [hid, h1] using this
        rw [applyDrafts_not_mem _ _ _ hnotin]
        exact ⟨h2, rfl⟩
      · have hid0tail : id0 ∈ buf.map Prod.fst := by
          exact List.mem_map.mpr ⟨(id0, c), htail, rfl⟩
        have hne : entry.1 ≠ id0 := by
          intro he
          exact (List.nodup_cons.mp hnd).1 (he ▸ hid0tail)
        rw [if_neg (by simpa using fun h => hne (hid ▸ h).symm)]
        exact ih el (List.nodup_cons.mp hnd).2 htail hid

theorem assocLookup_mem {β : Type} (buf : List (String × β)) (key : String) (v : β)
    (h : assocLookup buf key = some v) : (key, v) ∈ buf := by
  induction buf with
  | nil => simp [assocLookup] at h
  | cons entry buf ih =>
      rw [assocLookup] at h
      split at h
      · rename_i hk
        cases h
        simp [← hk]
      · exact List.mem_cons.mpr (Or.inr (ih h))

theorem assocLookup_assocSet_self {β : Type} (m : List (String × β)) (k : String) (v : β) :
    assocLookup (assocSet m k v) k = some v := by
  induction m with
  | nil => simp [assocSet, assocLookup]
  | cons entry m ih =>
      rw [assocSet]
      split
      · rename_i hk
        rw [assocLookup, if_pos hk]
      · rename_i hk
        rw [assocLookup, if_neg hk]
        exact ih

theorem find?_id_of_nodup (l : List TextElement) (e : TextElement)
    (hmem : e ∈ l) (hnd : (l.map (fun el => el.id)).Nodup) :
    l.find? (fun el => el.id == e.id) = some e := by
  induction l with
  | nil => simp at hmem
  | cons a t ih =>
      rcases List.mem_cons.mp hmem with rfl | htail
      · exact List.find?_cons_of_pos _ (by simp)
      · have hat : a.id ∉ t.map (fun el => el.id) := by
          simpa using (List.nodup_cons.mp hnd).1
        have hne : a.id ≠ e.id := by
          intro he
          exact hat (he ▸ List.mem_map.mpr ⟨e, htail, rfl⟩)
        rw [List.find?_cons_of_neg _ (by simpa using hne)]
        exact ih htail (List.nodup_cons.mp hnd).2

theorem setFirst_find? (l : List TextElement) (id : String)
    (g : TextElement → TextElement) (hg : ∀ x, (g x).id = x.id) :
    (setFirst l id g).find? (fun el => el.id == id) =
      (l.find? (fun el => el.id == id)).map g := by
  induction l with
  | nil => simp [setFirst]
  | cons el rest ih =>
      rw [setFirst]
      by_cases hid : el.id = id
      · rw [if_pos (by simpa using hid)]
        rw [List.find?_cons_of_pos _ (by simp [hg, hid])]
        rw [List.find?_cons_of_pos _ (by simpa using hid)]
        rfl
      · rw [if_neg (by simpa using hid)]
        rw [List.find?_cons_of_neg _ (by simpa using hid)]
        rw [List.find?_cons_of_neg _ (by simpa using hid)]
        exact ih

theorem find?_map_id_preserving (l : List TextElement) (g : TextElement → TextElement)
    (hg : ∀ x, (g x).id = x.id) (id : String) :
    (l.map g).find? (fun el => el.id == id) =
      (l.find? (fun el => el.id == id)).map g := by
  rw [List.find?_map]
  have h : ((fun el => el.id == id) ∘ g) = (fun el : TextElement => el.id == id) := by
    funext x
    simp [Function.comp, hg]
  rw [h]

theorem filter_ne_split (l : List TextElement) (e : TextElement)
    (hmem : e ∈ l) (hnd : (l.map (fun el => el.id)).Nodup) :
    ∃ l1 l2, l = l1 ++ e :: l2 ∧
      l.filter (fun f => f.id != e.id) = l1 ++ l2 ∧
      ∀ f ∈ l1 ++ l2, f.id ≠ e.id := by
  induction l with
  | nil => simp at hmem
  | cons a t ih =>
      have hat : a.id ∉ t.map (fun el => el.id) := by
        simpa using (List.nodup_cons.mp hnd).1
      by_cases hae : a.id = e.id
      · have haeq : e = a := by
          rcases List.mem_cons.mp hmem with rfl | htail
          · rfl
          · exact absurd (hae ▸ List.mem_map.mpr ⟨e, htail, rfl⟩) hat
        refine ⟨[], t, by simp [haeq], ?_, ?_⟩
        · rw [List.filter_cons, if_neg (by simp [hae])]
          rw [List.filter_eq_self.mpr]
          · simp
          · intro f hf
            have : f.id ≠ e.id := by
              intro hfe
              exact hat (hae ▸ hfe ▸ List.mem_map.mpr ⟨f, hf, rfl⟩)
            simpa using this
        · intro f hf
          simp at hf
          intro hfe
          exact hat (hae ▸ hfe ▸ List.mem_map.mpr ⟨f, hf, rfl⟩)
      · have htail : e ∈ t := by
          rcases List.mem_cons.mp hmem with rfl | htail
          · exact absurd rfl hae
          · exact htail
        obtain ⟨l1, l2, hsplit, hfilter, hall⟩ := ih htail (List.nodup_cons.mp hnd).2
        refine ⟨a :: l1, l2, by simp [hsplit], ?_, ?_⟩
        · rw [List.filter_cons, if_pos (by simpa using hae), hfilter]
          rfl
        · intro f hf
          rcases List.mem_cons.mp hf with rfl | hf'
          · exact hae
          · exact hall f hf'

theorem jsTrim_eq_empty_iff (s : String) :
    jsTrim s = "" ↔ ∀ c ∈ s.data, c.isWhitespace = true := by
  have hdata : jsTrim s = "" ↔
      (((s.data.dropWhile Char.isWhitespace).reverse.dropWhile Char.isWhitespace).reverse
        : List Char) = [] := by
    constructor
    · intro h
      have := congrArg String.data h
      simpa [jsTrim] using this
    · intro h
      simp [jsTrim, h]
  rw [hdata, List.reverse_eq_nil_iff, List.dropWhile_eq_nil_iff]
  constructor
  · intro h c hc
    rcases List.mem_append.mp
        ((List.takeWhile_append_dropWhile Char.isWhitespace s.data) ▸ hc) with h1 | h2
    · exact List.mem_takeWhile_imp h1
    · exact h c (List.mem_reverse.mpr h2)
  · intro h c hc
    have hc' : c ∈ s.data.dropWhile Char.isWhitespace := List.mem_reverse.mp hc
    have : c ∈ s.data := by
      have := List.takeWhile_append_dropWhile Char.isWhitespace s.data
      rw [← this]
      exact List.mem_append.mpr (Or.inr hc')
    exact h c this

theorem joinSpace_cons_cons (s r : String) (rest : List String) :
    joinSpace (s :: r :: rest) = s ++ " " ++ joinSpace (r :: rest) := rfl

theorem mem_data_joinSpace (l : List String) (t : String) (ht : t ∈ l)
    (c : Char) (hc : c ∈ t.data) : c ∈ (joinSpace l).data := by
  induction l with
  | nil => simp at ht
  | cons s rest ih =>
      cases rest with
      | nil =>
          have : t = s := by simpa using ht
          simpa [joinSpace, ← this] using hc
      | cons r rest' =>
          rw [joinSpace_cons_cons, String.data_append, String.data_append]
          rcases List.mem_cons.mp ht with rfl | ht'
          · exact List.mem_append.mpr (Or.inl (List.mem_append.mpr (Or.inl hc)))
          · exact List.mem_append.mpr (Or.inr (ih ht'))

theorem jsTrim_aggregate_empty_iff (els : List TextElement) :
    jsTrim (aggregateText els) = "" ↔ ∀ el ∈ els, jsTrim el.content = "" := by
  constructor
  · intro h el hel
    by_contra hne
    have hfil : el ∈ els.filter (fun el => jsTrim el.content != "") :=
      List.mem_filter.mpr ⟨hel, by simpa using hne⟩
    have hmemmap : el.content ∈
        (els.filter (fun el => jsTrim el.content != "")).map (fun el => el.content) :=
      List.mem_map.mpr ⟨el, hfil, rfl⟩
    obtain ⟨c, hc, hcw⟩ : ∃ c ∈ el.content.data, ¬ c.isWhitespace = true := by
      by_contra hall
      push_neg at hall
      exact hne ((jsTrim_eq_empty_iff el.content).mpr hall)
    have hcagg : c ∈ (aggregateText els).data :=
      mem_data_joinSpace _ _ hmemmap c hc
    exact hcw ((jsTrim_eq_empty_iff _).mp h c hcagg)
  · intro h
    have hfil : els.filter (fun el => jsTrim el.content != "") = [] := by
      rw [List.filter_eq_nil_iff]
      intro el hel
      simpa using h el hel
    simp only [aggregateText, hfil, List.map_nil, joinSpace]
    rfl

theorem handlePanStateChange_textElements (s : ComposerState) (elementId : String)
    (st : GestureState) :
    (handlePanStateChange s elementId st).textElements = s.textElements := by
  unfold handlePanStateChange
  by_cases hb : st = GestureState.BEGAN
  · rw [if_pos hb]
    cases hfind : s.textElements.find? (fun e => e.id == elementId) with
    | none =>
        simp only [hfind]
        split <;> rfl
    | some el =>
        simp only [hfind]
        split <;> rfl
  · rw [if_neg hb]
    split <;> rfl

theorem getScale_update_scale (s : ComposerState) (id : String) (v : ℚ)
    (element : TextElement)
    (heq : s.textElements.find? (fun el => el.id == id) = some element) :
    getScale { s with
      textElements := s.textElements.map (fun el =>
        if el.id == id then { el with scale := v } else el) } id = some v := by
  have hg : ∀ x : TextElement,
      ((fun el => if el.id == id then { el with scale := v } else el) x).id = x.id := by
    intro x
    dsimp only
    split <;> rfl
  have hmap := find?_map_id_preserving s.textElements
    (fun el => if el.id == id then { el with scale := v } else el) hg id
  have hpred := List.find?_some heq
  rw [getScale]
  show (List.find? (fun el => el.id == id)
      (s.textElements.map (fun el =>
        if el.id == id then { el with scale := v } else el))).map (fun el => el.scale) = some v
  rw [hmap, heq]
  have hpe : element.id = id := by simpa using hpred
  simp [hpe]

theorem handlePinchGesture_scale_bounds (s : ComposerState) (id : String)
    (st : GestureState) (f : ℚ) (q' : ℚ)
    (hinv : ∀ q, getScale s id = some q → 3 / 10 ≤ q ∧ q ≤ 5)
    (h : getScale (handlePinchGesture s id st f) id = some q') :
    3 / 10 ≤ q' ∧ q' ≤ 5 := by
  unfold handlePinchGesture at h
  split at h
  · split at h
    · rename_i element heq
      split at h
      · have h2 := (getScale_update_scale s id
          (max (3 / 10) (min 5 (element.scale * f))) element heq).symm.trans h
        have h3 := Option.some.inj h2
        rw [← h3]
        constructor
        · exact le_max_left _ _
        · exact max_le (by norm_num) (min_le_left _ _)
      · exact hinv q' h
    · exact hinv q' h
  · exact hinv q' h

theorem pinchRun_bounds (id : String) (frames : List (GestureState × ℚ)) :
    ∀ s : ComposerState, (∀ q, getScale s id = some q → 3 / 10 ≤ q ∧ q ≤ 5) →
      ∀ q, getScale (pinchRun s id frames) id = some q → 3 / 10 ≤ q ∧ q ≤ 5 := by
  induction frames with
  | nil => exact fun s hs => hs
  | cons fr frames ih =>
      intro s hs
      exact ih (handlePinchGesture s id fr.1 fr.2)
        (fun q hq => handlePinchGesture_scale_bounds s id fr.1 fr.2 q hs hq)

theorem getPos_update (s : ComposerState) (id : String) (a b : ℚ) (el : TextElement)
    (heq : s.textElements.find? (fun e => e.id == id) = some el) :
    getPos { s with
      textElements := s.textElements.map (fun e =>
        if e.id == id then { e with x := a, y := b } else e) } id = some (a, b) := by
  have hg : ∀ x : TextElement,
      ((fun e => if e.id == id then { e with x := a, y := b } else e) x).id = x.id := by
    intro x
    dsimp only
    split <;> rfl
  have hmap := find?_map_id_preserving s.textElements
    (fun e => if e.id == id then { e with x := a, y := b } else e) hg id
  have hpred := List.find?_some heq
  rw [getPos]
  show (List.find? (fun e => e.id == id)
      (s.textElements.map (fun e =>
        if e.id == id then { e with x := a, y := b } else e))).map (fun e => (e.x, e.y)) =
    some (a, b)
  rw [hmap, heq]
  have hpe : el.id = id := by simpa using hpred
  simp [hpe]

theorem handlePanGesture_active (s : ComposerState) (id : String) (x0 y0 tx ty : ℚ)
    (hinv : PanInv s id x0 y0) :
    getPos (handlePanGesture s id .ACTIVE tx ty) id = some (x0 + tx, y0 + ty) ∧
    PanInv (handlePanGesture s id .ACTIVE tx ty) id x0 y0 := by
  obtain ⟨hlook, hedit, el, hfind⟩ := hinv
  have hs' : handlePanGesture s id .ACTIVE tx ty = { s with
      textElements := s.textElements.map (fun e =>
        if e.id == id then { e with x := x0 + tx, y := y0 + ty } else e) } := by
    unfold handlePanGesture
    rw [if_neg (by simp [hedit])]
    simp only [hlook]
  refine ⟨?_, ?_, ?_, ?_⟩
  · rw [hs']
    exact getPos_update s id (x0 + tx) (y0 + ty) el hfind
  · rw [hs']
    exact hlook
  · rw [hs']
    exact hedit
  · rw [hs']
    have hmap := find?_map_id_preserving s.textElements
      (fun e => if e.id == id then { e with x := x0 + tx, y := y0 + ty } else e)
      (fun x => by dsimp only; split <;> rfl) id
    refine ⟨(fun e => if e.id == id then { e with x := x0 + tx, y := y0 + ty } else e) el, ?_⟩
    show (s.textElements.map (fun e =>
        if e.id == id then { e with x := x0 + tx, y := y0 + ty } else e)).find?
        (fun e => e.id == id) =
      some ((fun e => if e.id == id then { e with x := x0 + tx, y := y0 + ty } else e) el)
    rw [hmap, hfind]
    rfl

theorem moveTransform_eq (sw sh : ℚ) (e : TextElement) :
    moveTransform sw sh e =
      if isOffScreen sw sh e then
        { e with
          originalX := some e.x
          originalY := some e.y
          x := sw * (1 / 2)
          y := sh * (3 / 10) }
      else { e with originalX := some e.x, originalY := some e.y } := by
  by_cases hoff : isOffScreen sw sh e
  · rw [if_pos hoff]
    simp only [moveTransform]
    rw [if_pos (show e.x < 100 ∨ e.x > sw - 100 ∨ e.y < 100 ∨ e.y > sh - 100 from hoff)]
  · rw [if_neg hoff]
    simp only [moveTransform]
    rw [if_neg (show ¬ (e.x < 100 ∨ e.x > sw - 100 ∨ e.y < 100 ∨ e.y > sh - 100) from hoff)]

theorem moveTransform_id (sw sh : ℚ) (x : TextElement) :
    (moveTransform sw sh x).id = x.id := by
  rw [moveTransform_eq]
  split <;> rfl

theorem panRun_inv (id : String) (x0 y0 : ℚ) (ts : List (ℚ × ℚ)) :
    ∀ s, PanInv s id x0 y0 → PanInv (panRun s id ts) id x0 y0 := by
  induction ts with
  | nil => exact fun s h => h
  | cons t ts ih =>
      intro s h
      exact ih _ (handlePanGesture_active s id x0 y0 t.1 t.2 h).2

/-! ## Claim theorems -/

/-- Claim C2: on each active pinch frame the element's scale becomes the
previous committed scale times the incremental gesture factor, clamped to
`[0.3, 5.0]`; consequently, after any finite sequence of pinch frames of
arbitrary magnitude and direction the scale stays within `[0.3, 5.0]`. -/
theorem c2_pinch_scale_clamped (s : ComposerState) (elementId : String) (q0 : ℚ)
    (hedit : s.isEditingText = false) (hq : getScale s elementId = some q0) :
    (∀ factor, getScale (handlePinchGesture s elementId .ACTIVE factor) elementId =
        some (max (3 / 10) (min 5 (q0 * factor)))) ∧
    (3 / 10 ≤ q0 ∧ q0 ≤ 5 →
      ∀ frames q, getScale (pinchRun s elementId frames) elementId = some q →
        3 / 10 ≤ q ∧ q ≤ 5) := by
  obtain ⟨el, hfind, hscale⟩ : ∃ el,
      s.textElements.find? (fun e => e.id == elementId) = some el ∧ el.scale = q0 := by
    rcases Option.map_eq_some'.mp hq with ⟨el, h1, h2⟩
    exact ⟨el, h1, h2⟩
  constructor
  · intro factor
    have hval := getScale_update_scale s elementId
      (max (3 / 10) (min 5 (el.scale * factor))) el hfind
    have hgoal : handlePinchGesture s elementId .ACTIVE factor = { s with
        textElements := s.textElements.map (fun e =>
          if e.id == elementId then
            { e with scale := max (3 / 10) (min 5 (el.scale * factor)) }
          else e) } := by
      unfold handlePinchGesture
      rw [if_pos rfl]
      simp only [hfind]
      rw [if_pos hedit]
    rw [hgoal, ← hscale]
    exact hval
  · rintro ⟨h1, h2⟩ frames q hq'
    refine pinchRun_bounds elementId frames s ?_ q hq'
    intro q'' hq''
    rw [hq] at hq''
    cases hq''
    exact ⟨h1, h2⟩

/-- Witness for C2 at a concrete state: pinching the default element by a
factor of 100 clamps the scale to 5. -/
theorem c2_pinch_scale_clamped_witness :
    getScale (handlePinchGesture (mkState [mkNewTextElement "1" 200 300] "1" false 24 [])
      "1" .ACTIVE 100) "1" = some 5 := by
  have h := (c2_pinch_scale_clamped (mkState [mkNewTextElement "1" 200 300] "1" false 24 [])
    "1" 1 (by rfl) (by rfl)).1 100
  rw [h]
  norm_num

/-- Claim C9: while the editing flag is set, neither a pan frame nor a pinch
frame (nor a pan state transition) changes any element of the store — in
particular no element's position or scale changes. -/
theorem c9_gestures_disabled_while_editing (s : ComposerState)
    (hedit : s.isEditingText = true) (elementId : String) (st : GestureState)
    (factor tx ty : ℚ) :
    (handlePanGesture s elementId st tx ty).textElements = s.textElements ∧
    (handlePinchGesture s elementId st factor).textElements = s.textElements ∧
    (handlePanStateChange s elementId st).textElements = s.textElements := by
  refine ⟨?_, ?_, handlePanStateChange_textElements s elementId st⟩
  · unfold handlePanGesture
    rw [if_pos (Or.inr hedit)]
  · unfold handlePinchGesture
    split
    · split
      · rw [if_neg (by simp [hedit])]
      · rfl
    · rfl

/-- Witness for C9 at a concrete editing state. -/
theorem c9_gestures_disabled_while_editing_witness :
    (handlePanGesture (mkState [mkNewTextElement "1" 200 300] "1" true 24 [("1", "hi")])
      "1" .ACTIVE 50 50).textElements =
      (mkState [mkNewTextElement "1" 200 300] "1" true 24 [("1", "hi")]).textElements ∧
    (handlePinchGesture (mkState [mkNewTextElement "1" 200 300] "1" true 24 [("1", "hi")])
      "1" .ACTIVE 2).textElements =
      (mkState [mkNewTextElement "1" 200 300] "1" true 24 [("1", "hi")]).textElements := by
  have h := c9_gestures_disabled_while_editing
    (mkState [mkNewTextElement "1" 200 300] "1" true 24 [("1", "hi")]) (by rfl) "1" .ACTIVE 2 50 50
  exact ⟨h.1, h.2.1⟩

/-- Claim C6: for a drag on an element while not editing, the position is
snapshotted at gesture begin; on every active frame the element's position
equals the snapshot plus that frame's cumulative translation (no damping,
no clamping); and an end/cancel state transition never changes any
element, so the store keeps the position of the last active frame. -/
theorem c6_drag_translation (s : ComposerState) (elementId : String) (x0 y0 : ℚ)
    (hedit : s.isEditingText = false) (hpos : getPos s elementId = some (x0, y0)) :
    assocLookup (handlePanStateChange s elementId .BEGAN).dragStart elementId =
      some (x0, y0) ∧
    (∀ ts tx ty,
      getPos (handlePanGesture
          (panRun (handlePanStateChange s elementId .BEGAN) elementId ts)
          elementId .ACTIVE tx ty) elementId = some (x0 + tx, y0 + ty)) ∧
    (∀ (t : ComposerState) (st : GestureState) (id' : String),
      (handlePanStateChange t id' st).textElements = t.textElements) := by
  obtain ⟨el, hfind, hxy⟩ : ∃ el,
      s.textElements.find? (fun e => e.id == elementId) = some el ∧
        (el.x, el.y) = (x0, y0) := by
    rcases Option.map_eq_some'.mp hpos with ⟨el, h1, h2⟩
    exact ⟨el, h1, h2⟩
  have hs1 : handlePanStateChange s elementId .BEGAN =
      { s with dragStart := assocSet s.dragStart elementId (el.x, el.y) } := by
    unfold handlePanStateChange
    rw [if_pos rfl]
    simp only [hfind]
    rw [if_neg (by simp)]
  have hlook : assocLookup (handlePanStateChange s elementId .BEGAN).dragStart elementId =
      some (x0, y0) := by
    rw [hs1]
    rw [show ({ s with dragStart := assocSet s.dragStart elementId (el.x, el.y) }
        : ComposerState).dragStart = assocSet s.dragStart elementId (el.x, el.y) from rfl]
    rw [assocLookup_assocSet_self, hxy]
  have hinv1 : PanInv (handlePanStateChange s elementId .BEGAN) elementId x0 y0 := by
    refine ⟨hlook, ?_, el, ?_⟩
    · rw [hs1]
      exact hedit
    · rw [hs1]
      exact hfind
  refine ⟨hlook, ?_, fun t st id' => handlePanStateChange_textElements t id' st⟩
  intro ts tx ty
  exact (handlePanGesture_active _ elementId x0 y0 tx ty
    (panRun_inv elementId x0 y0 ts _ hinv1)).1

/-- Witness for C6 at a concrete state: begin, two active frames, final
position is the snapshot plus the last cumulative translation. -/
theorem c6_drag_translation_witness :
    getPos (handlePanGesture
        (panRun (handlePanStateChange (mkState [mkNewTextElement "1" 200 300] "1" false 24 [])
          "1" .BEGAN) "1" [(5, 5)])
        "1" .ACTIVE 30 (-40)) "1" = some (230, 260) := by
  have h := (c6_drag_translation (mkState [mkNewTextElement "1" 200 300] "1" false 24 [])
    "1" 200 300 (by rfl) (by rfl)).2.1 [(5, 5)] 30 (-40)
  rw [h]
  norm_num

/-- Claim C8: when exactly one element remains, the explicit (long-press)
delete is a no-op, leaving the whole state unchanged; with more than one
element, deleting by id removes exactly that element and keeps every other
element, in order. -/
theorem c8_delete_element (s : ComposerState) (e : TextElement)
    (hmem : e ∈ s.textElements) (hnd : (s.textElements.map (fun el => el.id)).Nodup) :
    (s.textElements.length = 1 → deleteTextElement s e.id = s) ∧
    (1 < s.textElements.length →
      e ∉ (deleteTextElement s e.id).textElements ∧
      (deleteTextElement s e.id).textElements.length + 1 = s.textElements.length ∧
      (∀ f ∈ s.textElements, f ≠ e → f ∈ (deleteTextElement s e.id).textElements) ∧
      (deleteTextElement s e.id).textElements.Sublist s.textElements) := by
  constructor
  · intro hlen
    unfold deleteTextElement
    rw [if_neg (by omega)]
  · intro hlen
    obtain ⟨l1, l2, hsplit, hfilter, hall⟩ := filter_ne_split s.textElements e hmem hnd
    have hdel : (deleteTextElement s e.id).textElements = l1 ++ l2 := by
      unfold deleteTextElement
      rw [if_pos hlen]
      exact hfilter
    refine ⟨?_, ?_, ?_, ?_⟩
    · rw [hdel]
      intro hmem'
      exact (hall e hmem') rfl
    · rw [hdel, hsplit]
      simp only [List.length_append, List.length_cons]
      omega
    · intro f hf hne
      rw [hdel]
      rw [hsplit] at hf
      rcases List.mem_append.mp hf with h1 | h2
      · exact List.mem_append.mpr (Or.inl h1)
      · rcases List.mem_cons.mp h2 with rfl | h3
        · exact absurd rfl hne
        · exact List.mem_append.mpr (Or.inr h3)
    · rw [hdel, ← hfilter]
      exact List.filter_sublist _

/-- Witness for C8: deleting the only element is a no-op; deleting one of
two elements removes it. -/
theorem c8_delete_element_witness :
    deleteTextElement (mkState [mkNewTextElement "1" 200 300] "1" false 24 [])
        (mkNewTextElement "1" 200 300).id =
      mkState [mkNewTextElement "1" 200 300] "1" false 24 [] ∧
    mkNewTextElement "2" 50 50 ∉ (deleteTextElement
      (mkState [mkNewTextElement "1" 200 300, mkNewTextElement "2" 50 50] "1" false 24 [])
      (mkNewTextElement "2" 50 50).id).textElements := by
  constructor
  · exact (c8_delete_element (mkState [mkNewTextElement "1" 200 300] "1" false 24 [])
      (mkNewTextElement "1" 200 300) (by decide) (by decide)).1 (by decide)
  · exact ((c8_delete_element
      (mkState [mkNewTextElement "1" 200 300, mkNewTextElement "2" 50 50] "1" false 24 [])
      (mkNewTextElement "2" 50 50) (by decide) (by decide)).2 (by decide)).1

/-- Counterexample for C4: the first element's 300×80 hit box is anchored
at `(x - 100, y - 25)`, not centered.  At position `(200, 200)` the
claim's centered box contains the point `(60, 200)`, yet the resolver
reports no hit. -/
theorem c4_counterexample :
    specCenteredHit (mkNewTextElement "1" 200 200) 60 200 = true ∧
    findElementAtPosition [mkNewTextElement "1" 200 200] 60 200 = none := by
  constructor
  · rw [specCenteredHit]
    norm_num [mkNewTextElement]
  · rw [findElementAtPosition]
    rw [List.find?_cons_of_neg _ (by rw [hitTest]; norm_num [mkNewTextElement])]
    rw [List.find?_nil]

/-- Claim C4 (amended): the resolver returns the first element in creation
order whose hit box contains the point, where the hit box spans
`[x-100, x+100] × [y-25, y+25]` (a centered 200×50 box) for every element
other than the first, and `[x-100, x+200] × [y-25, y+55]` (an uncentered
300×80 box extending further right and down) for the first element
`"1"`. -/
theorem c4_hit_test_geometry (els : List TextElement) (x y : ℚ) :
    (findElementAtPosition els x y = none ↔ ∀ e ∈ els, hitTest e x y = false) ∧
    (∀ e, findElementAtPosition els x y = some e ↔
      hitTest e x y = true ∧
        ∃ l1 l2, els = l1 ++ e :: l2 ∧ ∀ f ∈ l1, hitTest f x y = false) ∧
    (∀ e : TextElement, e.id ≠ "1" →
      (hitTest e x y = true ↔ |x - e.x| ≤ 100 ∧ |y - e.y| ≤ 25)) ∧
    (∀ e : TextElement, e.id = "1" →
      (hitTest e x y = true ↔
        e.x - 100 ≤ x ∧ x ≤ e.x + 200 ∧ e.y - 25 ≤ y ∧ y ≤ e.y + 55)) := by
  refine ⟨?_, ?_, ?_, ?_⟩
  · simp [findElementAtPosition, List.find?_eq_none]
  · intro e
    rw [findElementAtPosition, List.find?_eq_some]
    simp [Bool.not_eq_true']
  · intro e he
    have hid : (e.id == "1") = false := by simpa using he
    rw [hitTest]
    simp only [hid, Bool.false_eq_true, if_false, Bool.and_eq_true, decide_eq_true_eq]
    rw [abs_le, abs_le]
    constructor
    · rintro ⟨⟨⟨h1, h2⟩, h3⟩, h4⟩
      exact ⟨⟨by linarith, by linarith⟩, by linarith, by linarith⟩
    · rintro ⟨⟨h1, h2⟩, h3, h4⟩
      exact ⟨⟨⟨by linarith, by linarith⟩, by linarith⟩, by linarith⟩
  · intro e he
    have hid : (e.id == "1") = true := by simpa using he
    rw [hitTest]
    simp only [hid, if_true, Bool.and_eq_true, decide_eq_true_eq]
    constructor
    · rintro ⟨⟨⟨h1, h2⟩, h3⟩, h4⟩
      exact ⟨by linarith, by linarith, by linarith, by linarith⟩
    · rintro ⟨h1, h2, h3, h4⟩
      exact ⟨⟨⟨by linarith, by linarith⟩, by linarith⟩, by linarith⟩

/-- Witness for C4 (amended) at a concrete non-first element: its box is
the centered one. -/
theorem c4_hit_test_geometry_witness :
    hitTest (mkNewTextElement "2" 0 0) 10 5 = true := by
  exact ((c4_hit_test_geometry [mkNewTextElement "2" 0 0] 10 5).2.2.1
    (mkNewTextElement "2" 0 0) (by decide)).mpr (by norm_num [mkNewTextElement, abs_le])

/-- Claim C5 (code bug): the serializer bakes scale into the exported font
size (`24 × 2 → 48`, `10 × 0.3 → 3`) and does not export scale, but the
exported `hasBackground` is the element's stored boolean flag, which stays
`false` for an element whose `backgroundMode` is `white` — even though
`getTextStyle` renders that element with a white background chip.  The
claim's "`hasBackground` is true for the white and inverted modes" fails on
this element. -/
theorem c5_serializer_background_divergence :
    ({ mkNewTextElement "1" 200 300 with
        backgroundMode := .white } : TextElement).backgroundMode = BackgroundMode.white ∧
    (getTextStyle { mkNewTextElement "1" 200 300 with
        backgroundMode := .white }).backgroundColor = "#FFFFFF" ∧
    (getTextStyle { mkNewTextElement "1" 200 300 with
        backgroundMode := .white }).hasPadding = true ∧
    (serializeElement { mkNewTextElement "1" 200 300 with
        backgroundMode := .white }).hasBackground = false ∧
    (serializeElement { mkNewTextElement "1" 200 300 with
        fontSize := 24, scale := 2 }).fontSize = 48 ∧
    (serializeElement { mkNewTextElement "1" 200 300 with
        fontSize := 10, scale := 3 / 10 }).fontSize = 3 := by
  refine ⟨rfl, rfl, rfl, rfl, ?_, ?_⟩
  · show round ((24 : ℚ) * 2) = 48
    norm_num
  · show round ((10 : ℚ) * (3 / 10)) = 3
    norm_num

set_option maxRecDepth 100000 in
/-- Counterexample for C3: the serializer joins the *untrimmed* content
values of the kept elements, not their trimmed values.  A single element
whose content is a space followed by 500 characters yields a 501-character
aggregate and fails with `TooLong`, although the aggregate of trimmed
values described by the claim has exactly 500 characters. -/
theorem c3_counterexample :
    handlePost 400 800 none
        (mkState [{ mkNewTextElement "1" 200 300 with
          content := String.mk (' ' :: List.replicate 500 'a') }] "1" false 24 []) =
      Except.error PostError.TooLong ∧
    (specAggregateText (effectiveElements
        (mkState [{ mkNewTextElement "1" 200 300 with
          content := String.mk (' ' :: List.replicate 500 'a') }] "1" false 24 []))).length ≤
      maxLength := by
  constructor
  · rfl
  · decide

/-- Claim C3 (amended): the aggregate joins, in creation order with
single-space separators, the untrimmed `content` values of the elements
whose trimmed content is non-empty.  Submission fails with `EmptyContent`
exactly when that aggregate is blank after trimming — equivalently, when
every element's (buffer-overridden) content is blank — and fails with
`TooLong` exactly when the aggregate is non-blank and longer than 500
characters; in both failure cases no payload is produced, hence no network
call happens. -/
theorem c3_serializer_validation (sw sh : ℚ) (rd : Option RepostData)
    (s : ComposerState) :
    (handlePost sw sh rd s = Except.error PostError.EmptyContent ↔
      jsTrim (aggregateText (effectiveElements s)) = "") ∧
    (jsTrim (aggregateText (effectiveElements s)) = "" ↔
      ∀ el ∈ effectiveElements s, jsTrim el.content = "") ∧
    (handlePost sw sh rd s = Except.error PostError.TooLong ↔
      ¬ jsTrim (aggregateText (effectiveElements s)) = "" ∧
        (aggregateText (effectiveElements s)).length > maxLength) ∧
    (∀ err p, handlePost sw sh rd s = Except.error err →
      handlePost sw sh rd s ≠ Except.ok p) := by
  refine ⟨?_, jsTrim_aggregate_empty_iff _, ?_, ?_⟩
  · simp only [handlePost]
    split_ifs with h1 h2
    · simp [h1]
    · simp [h1]
    · simp [h1]
  · simp only [handlePost]
    split_ifs with h1 h2
    · simp [h1]
    · simp [h1, h2]
    · simp [h1, h2]
  · intro err p h hcontra
    rw [h] at hcontra
    exact Except.noConfusion hcontra

/-- Witness for C3 (amended): a store whose single element is blank fails
with `EmptyContent`. -/
theorem c3_serializer_validation_witness :
    handlePost 400 800 none (mkState [mkNewTextElement "1" 200 300] "1" false 24 []) =
      Except.error PostError.EmptyContent :=
  (c3_serializer_validation 400 800 none
    (mkState [mkNewTextElement "1" 200 300] "1" false 24 [])).1.mpr (by rfl)

/-- Claim C7: entering editing always records the pre-relocation position in
`originalX`/`originalY`; the element is moved to the default anchor
`(screenWidth/2, 3·screenHeight/10)` precisely when its position is within
100 units of a canvas edge, and left in place otherwise (so
`originalPosition` then equals the unchanged position); and exiting editing
via `stopEditingText` changes no element's position or
`originalX`/`originalY` — relocation is never undone. -/
theorem c7_edit_relocation (sw sh : ℚ) (s : ComposerState) (e : TextElement)
    (hmem : e ∈ s.textElements) (hnd : (s.textElements.map (fun el => el.id)).Nodup) :
    (∃ e', (startEditingText sw sh e.id s).textElements.find?
        (fun el => el.id == e.id) = some e' ∧
      e'.originalX = some e.x ∧ e'.originalY = some e.y ∧
      (isOffScreen sw sh e → e'.x = sw * (1 / 2) ∧ e'.y = sh * (3 / 10)) ∧
      (¬ isOffScreen sw sh e → e'.x = e.x ∧ e'.y = e.y)) ∧
    (∀ t : ComposerState,
      (stopEditingText t).textElements.map (fun el => (el.x, el.y, el.originalX, el.originalY)) =
        t.textElements.map (fun el => (el.x, el.y, el.originalX, el.originalY))) := by
  constructor
  · have hfind0 := find?_id_of_nodup s.textElements e hmem hnd
    have hsf := setFirst_find? s.textElements e.id (moveTransform sw sh)
      (moveTransform_id sw sh)
    rw [hfind0] at hsf
    have hmove : (moveTextIntoViewForEditing sw sh e.id s.textElements).find?
        (fun el => el.id == e.id) = some (moveTransform sw sh e) := by
      rw [moveTextIntoViewForEditing, hsf]
      rfl
    have hstart : (startEditingText sw sh e.id s).textElements =
        moveTextIntoViewForEditing sw sh e.id s.textElements := by
      unfold startEditingText
      rw [hmove]
    refine ⟨moveTransform sw sh e, ?_, ?_, ?_, ?_, ?_⟩
    · rw [hstart]
      exact hmove
    · rw [moveTransform_eq]
      split <;> rfl
    · rw [moveTransform_eq]
      split <;> rfl
    · intro hoff
      rw [moveTransform_eq, if_pos hoff]
      exact ⟨rfl, rfl⟩
    · intro hoff
      rw [moveTransform_eq, if_neg hoff]
      exact ⟨rfl, rfl⟩
  · intro t
    show (commitDrafts t.localTextContent t.currentFontSize t.textElements).map _ = _
    rw [commitDrafts_eq_map, List.map_map]
    refine List.map_congr_left ?_
    intro a _
    obtain ⟨_, hx, hy, hox, hoy, _⟩ :=
      applyDrafts_preserves t.localTextContent t.currentFontSize a
    simp [Function.comp, hx, hy, hox, hoy]

/-- Witness for C7: an element at `(50, 50)` (within the 100-unit margin)
is relocated to the default anchor on edit entry. -/
theorem c7_edit_relocation_witness :
    getPos (startEditingText 400 800 (mkNewTextElement "1" 50 50).id
        (mkState [mkNewTextElement "1" 50 50] "1" false 24 []))
      (mkNewTextElement "1" 50 50).id = some (400 * (1 / 2), 800 * (3 / 10)) := by
  obtain ⟨e', hf, hox, hoy, hon, hoff⟩ :=
    (c7_edit_relocation 400 800 (mkState [mkNewTextElement "1" 50 50] "1" false 24 [])
      (mkNewTextElement "1" 50 50) (by decide) (by decide)).1
  obtain ⟨hx, hy⟩ := hon (by norm_num [isOffScreen, mkNewTextElement])
  rw [getPos, hf]
  simp [hx, hy]

/-- Claim C1: exiting an edit session on element `e` via a canvas tap
commits every pending local edit buffer entry into the store, writing back
both the buffered content and the active editing font size; when `e`'s
buffered content is blank after trimming, `e` is deleted from the store and
the selection is cleared; in every case the local edit buffer is completely
empty afterwards and the editing flag is false. -/
theorem c1_edit_exit_commit (sw sh lx ly : ℚ) (nid : String) (s : ComposerState)
    (e : TextElement) (draft : String)
    (hedit : s.isEditingText = true)
    (hsel : s.textElements.find? (fun el => el.id == s.selectedTextId) = some e)
    (hdraft : assocLookup s.localTextContent e.id = some draft)
    (hkeys : (s.localTextContent.map Prod.fst).Nodup) :
    (handleCanvasTap sw sh s lx ly nid).localTextContent = [] ∧
    (handleCanvasTap sw sh s lx ly nid).isEditingText = false ∧
    (jsTrim draft = "" →
      (∀ el ∈ (handleCanvasTap sw sh s lx ly nid).textElements, el.id ≠ e.id) ∧
      (handleCanvasTap sw sh s lx ly nid).selectedTextId = "") ∧
    (jsTrim draft ≠ "" →
      (∃ el ∈ (handleCanvasTap sw sh s lx ly nid).textElements,
        el.id = e.id ∧ el.content = draft ∧ el.fontSize = s.currentFontSize) ∧
      ∀ id c, (id, c) ∈ s.localTextContent →
        ∀ el ∈ (handleCanvasTap sw sh s lx ly nid).textElements,
          el.id = id → el.content = c ∧ el.fontSize = s.currentFontSize) := by
  have hcur : getCurrentTextElement s = some e := by
    unfold getCurrentTextElement
    rw [hsel]
  have hmem : e ∈ s.textElements := List.mem_of_find?_eq_some hsel
  by_cases hblank : jsTrim draft = ""
  · have htap : handleCanvasTap sw sh s lx ly nid = { s with
        textElements := commitDrafts s.localTextContent s.currentFontSize
          (s.textElements.filter (fun el => el.id != e.id))
        selectedTextId := ""
        isEditingText := false
        screenDarkened := false
        showControlBar := false
        localTextContent := [] } := by
      unfold handleCanvasTap
      rw [if_pos hedit]
      simp only [hcur]
      rw [hdraft]
      rw [if_pos (by simpa using hblank)]
    rw [htap]
    refine ⟨rfl, rfl, ?_, ?_⟩
    · intro _
      refine ⟨?_, rfl⟩
      intro el hel
      rw [show ({ s with
          textElements := commitDrafts s.localTextContent s.currentFontSize
            (s.textElements.filter (fun el => el.id != e.id))
          selectedTextId := ""
          isEditingText := false
          screenDarkened := false
          showControlBar := false
          localTextContent := [] } : ComposerState).textElements =
        commitDrafts s.localTextContent s.currentFontSize
          (s.textElements.filter (fun el => el.id != e.id)) from rfl,
        commitDrafts_eq_map] at hel
      rcases List.mem_map.mp hel with ⟨el0, hel0, rfl⟩
      have hid := (applyDrafts_preserves s.localTextContent s.currentFontSize el0).1
      have hne : el0.id ≠ e.id := by
        have := (List.mem_filter.mp hel0).2
        simpa using this
      rw [hid]
      exact hne
    · intro h
      exact absurd hblank h
  · have htap : handleCanvasTap sw sh s lx ly nid = { s with
        textElements := commitDrafts s.localTextContent s.currentFontSize s.textElements
        isEditingText := false
        screenDarkened := false
        showControlBar := false
        localTextContent := [] } := by
      unfold handleCanvasTap
      rw [if_pos hedit]
      simp only [hcur]
      rw [hdraft]
      rw [if_neg (by simpa using hblank)]
    rw [htap]
    refine ⟨rfl, rfl, fun h => absurd h hblank, fun _ => ⟨?_, ?_⟩⟩
    · refine ⟨applyDrafts s.localTextContent s.currentFontSize e, ?_, ?_, ?_⟩
      · rw [show ({ s with
            textElements := commitDrafts s.localTextContent s.currentFontSize s.textElements
            isEditingText := false
            screenDarkened := false
            showControlBar := false
            localTextContent := [] } : ComposerState).textElements =
          commitDrafts s.localTextContent s.currentFontSize s.textElements from rfl,
          commitDrafts_eq_map]
        exact List.mem_map.mpr ⟨e, hmem, rfl⟩
      · exact (applyDrafts_preserves s.localTextContent s.currentFontSize e).1
      · exact applyDrafts_lookup s.localTextContent s.currentFontSize e e.id draft hkeys
          (assocLookup_mem s.localTextContent e.id draft hdraft) rfl
    · intro id c hmemc el hel hidel
      rw [show ({ s with
          textElements := commitDrafts s.localTextContent s.currentFontSize s.textElements
          isEditingText := false
          screenDarkened := false
          showControlBar := false
          localTextContent := [] } : ComposerState).textElements =
        commitDrafts s.localTextContent s.currentFontSize s.textElements from rfl,
        commitDrafts_eq_map] at hel
      rcases List.mem_map.mp hel with ⟨el0, _, rfl⟩
      have hid0 := (applyDrafts_preserves s.localTextContent s.currentFontSize el0).1
      exact applyDrafts_lookup s.localTextContent s.currentFontSize el0 id c hkeys hmemc
        (hid0.symm ▸ hidel)

/-- Witness for C1 at a concrete state: a non-blank draft commits the typed
content and the active font size, and the buffer ends empty. -/
theorem c1_edit_exit_commit_witness :
    (handleCanvasTap 400 800
        (mkState [mkNewTextElement "1" 200 300] "1" true 30 [("1", "hi")])
        10 10 "9").localTextContent = [] ∧
    ∃ el ∈ (handleCanvasTap 400 800
        (mkState [mkNewTextElement "1" 200 300] "1" true 30 [("1", "hi")])
        10 10 "9").textElements,
      el.id = (mkNewTextElement "1" 200 300).id ∧ el.content = "hi" ∧
        el.fontSize = (mkState [mkNewTextElement "1" 200 300] "1" true 30
          [("1", "hi")]).currentFontSize := by
  have h := c1_edit_exit_commit 400 800 10 10 "9"
    (mkState [mkNewTextElement "1" 200 300] "1" true 30 [("1", "hi")])
    (mkNewTextElement "1" 200 300) "hi" rfl (by rfl) (by rfl) (by decide)
  exact ⟨h.1, (h.2.2.2 (by decide)).1⟩

/-- Claim C10: the one-element floor protects only the explicit delete
path — a canvas tap that exits editing with a blank draft deletes the
edited element even when it is the only one, leaving a store with zero
elements, from which submission fails with `EmptyContent`. -/
theorem c10_empty_store_reachable (sw sh lx ly : ℚ) (nid : String)
    (s : ComposerState) (e : TextElement)
    (hels : s.textElements = [e]) (hsel : s.selectedTextId = e.id)
    (hedit : s.isEditingText = true)
    (hblank : jsTrim ((assocLookup s.localTextContent e.id).getD e.content) = "") :
    (handleCanvasTap sw sh s lx ly nid).textElements = [] ∧
    handlePost sw sh none (handleCanvasTap sw sh s lx ly nid) =
      Except.error PostError.EmptyContent := by
  have hfind : s.textElements.find? (fun el => el.id == s.selectedTextId) = some e := by
    rw [hels, hsel]
    exact List.find?_cons_of_pos _ (by simp)
  have hcur : getCurrentTextElement s = some e := by
    unfold getCurrentTextElement
    rw [hfind]
  have htap : (handleCanvasTap sw sh s lx ly nid).textElements = [] := by
    unfold handleCanvasTap
    rw [if_pos hedit]
    simp only [hcur]
    rw [if_pos hblank]
    show commitDrafts s.localTextContent s.currentFontSize
      (s.textElements.filter (fun el => el.id != e.id)) = []
    rw [hels, show ([e].filter (fun el => el.id != e.id)) = [] by simp, commitDrafts_eq_map]
    rfl
  refine ⟨htap, ?_⟩
  have heff : effectiveElements (handleCanvasTap sw sh s lx ly nid) = [] := by
    unfold effectiveElements
    rw [htap]
    rfl
  simp only [handlePost, heff]
  rw [show aggregateText [] = "" from rfl]
  rw [if_pos (show jsTrim "" = "" from rfl)]

/-- Witness for C10: a single blank element is deleted by the exit tap and
posting then fails with `EmptyContent`. -/
theorem c10_empty_store_reachable_witness :
    (handleCanvasTap 400 800
        (mkState [mkNewTextElement "1" 200 300] "1" true 24 [("1", "   ")])
        10 10 "9").textElements = [] ∧
    handlePost 400 800 none (handleCanvasTap 400 800
        (mkState [mkNewTextElement "1" 200 300] "1" true 24 [("1", "   ")])
        10 10 "9") = Except.error PostError.EmptyContent :=
  c10_empty_store_reachable 400 800 10 10 "9"
    (mkState [mkNewTextElement "1" 200 300] "1" true 24 [("1", "   ")])
    (mkNewTextElement "1" 200 300) rfl rfl rfl (by rfl)

end SpiteCreate
